import Mathlib

/-!
Verification of the thingdb item-hierarchy and QR-identity core.

This file gives a shallow embedding of the route handlers of the thingdb
repository that carry the hierarchy and identity logic:

* `src/src/utils/helpers.py` — `is_valid_guid` (delegating to Python
  `uuid.UUID`);
* `src/src/thingdb/routes/item_routes.py` — `set_parent_item`,
  `delete_item`, `_creates_circular_reference`;
* `src/src/thingdb/routes/scanner_routes.py` — `delete_item`,
  `_resolve_to_base_guid`, `make_alias`, `bulk_move`;
* `src/pi-deployment/routes/relationship_routes.py` — `bulk_move_items`,
  `associate_item`;
* `src/src/thingdb/routes/core_routes.py` — the placeholder-creation part
  of `process_guid`.

The relational store is modelled as association lists: `items` maps an item
guid to its nullable `parent_guid` column, and `aliases` maps a `qr_code`
to its `item_guid` column.  Columns that no verified claim depends on
(names, labels, timestamps, images, categories, embeddings) are elided.
HTTP status/message pairs are modelled by the error taxonomy of the spec
(`InvalidArgument`, `NotFound`, `CycleDetected`, `HasChildren`, plus the
duplicate-key condition of the store).
-/

namespace ThingDB

abbrev Guid := String

/-- Error kinds, following the error taxonomy of the spec (section 7).
Each route returns an HTTP status plus message; the mapping used here is:
400 malformed/self-referential input = `invalidArgument`, 404 = `notFound`,
400 circular reference = `cycleDetected`, 400 contained items =
`hasChildren`, and a unique-constraint violation raised by the store =
`duplicateKey`. -/
inductive Err where
  | invalidArgument : Err
  | notFound : Err
  | cycleDetected : Err
  | hasChildren : Err
  | duplicateKey : Err
deriving Repr, DecidableEq

/-- The relational store: `items` holds one entry per Item row,
`(guid, parent_guid)` with `none` for a NULL parent; `aliases` holds one
entry per qr_aliases row, `(qr_code, item_guid)`. -/
structure Store where
  items : List (Guid × Option Guid)
  aliases : List (Guid × Guid)
deriving Repr, DecidableEq

/-- SELECT parent_guid FROM items WHERE guid = g (point lookup; `none`
when no row exists, `some p` when the row exists with parent column p). -/
def lookupItem (s : Store) (g : Guid) : Option (Option Guid) :=
  (s.items.find? (fun q => q.1 == g)).map Prod.snd

/-- SELECT guid FROM items WHERE guid = g, as an existence test. -/
def itemExists (s : Store) (g : Guid) : Bool :=
  (s.items.find? (fun q => q.1 == g)).isSome

/-- SELECT item_guid FROM qr_aliases WHERE qr_code = c (point lookup). -/
def lookupAlias (s : Store) (c : Guid) : Option Guid :=
  (s.aliases.find? (fun q => q.1 == c)).map Prod.snd

/-- SELECT COUNT(*) FROM items WHERE parent_guid = g. -/
def childCount (s : Store) (g : Guid) : Nat :=
  (s.items.filter (fun q => q.2 == some g)).length

/-- UPDATE items SET parent_guid = p WHERE guid = g (timestamp elided). -/
def updateParent (s : Store) (g : Guid) (p : Option Guid) : Store :=
  { s with items := s.items.map (fun q => if q.1 == g then (q.1, p) else q) }

/-- DELETE FROM items WHERE guid = g. -/
def deleteItemRow (s : Store) (g : Guid) : Store :=
  { s with items := s.items.filter (fun q => !(q.1 == g)) }

/-- DELETE FROM qr_aliases WHERE item_guid = g. -/
def deleteAliasesOf (s : Store) (g : Guid) : Store :=
  { s with aliases := s.aliases.filter (fun q => !(q.2 == g)) }

/-- INSERT INTO qr_aliases (qr_code, item_guid) VALUES (c, g); the store
enforces uniqueness of qr_code, so the insert fails with a duplicate-key
error when an alias row with this qr_code already exists. -/
def insertAliasRow (s : Store) (c : Guid) (g : Guid) : Except Err Store :=
  if (lookupAlias s c).isSome then .error .duplicateKey
  else .ok { s with aliases := s.aliases ++ [(c, g)] }

/-- INSERT INTO items (guid, parent_guid) VALUES (g, p); the store enforces
primary-key uniqueness of guid, so the insert fails with a duplicate-key
error when an Item row with this guid already exists. -/
def insertItemRow (s : Store) (g : Guid) (p : Option Guid) : Except Err Store :=
  if itemExists s g then .error .duplicateKey
  else .ok { s with items := s.items ++ [(g, p)] }

/-! ### is_valid_guid (src/src/utils/helpers.py, lines 13-19)

`is_valid_guid` calls Python `uuid.UUID(guid_string)` and returns whether
it raised `ValueError`.  The CPython constructor does, for a string
argument: remove every occurrence of the literal urn: and then of the
literal uuid:, strip curly braces from both ends, remove every hyphen,
require that exactly 32 characters remain, and finally parse those
characters with int(hex, 16).  The pieces are modelled below on
`List Char`; the `int(_, 16)` grammar is modelled for ASCII input
(optional surrounding ASCII whitespace, one optional sign, an optional
hexadecimal prefix 0x/0X possibly followed by one underscore, then hex
digits with single underscores allowed between digits).  CPython
additionally accepts non-ASCII Unicode digits and whitespace; no claim
here depends on those. -/

def isHexDigit (c : Char) : Bool :=
  (Char.ofNat 48 ≤ c && c ≤ Char.ofNat 57) ||
  (Char.ofNat 97 ≤ c && c ≤ Char.ofNat 102) ||
  (Char.ofNat 65 ≤ c && c ≤ Char.ofNat 70)

/-- ASCII whitespace accepted by the Python int parser. -/
def isPySpace (c : Char) : Bool :=
  c == ' ' || c == Char.ofNat 9 || c == Char.ofNat 10 || c == Char.ofNat 11 ||
  c == Char.ofNat 12 || c == Char.ofNat 13

/-- Curly braces, stripped from both ends by the uuid constructor. -/
def isBrace (c : Char) : Bool :=
  c == Char.ofNat 123 || c == Char.ofNat 125

/-- Test whether `pat` is a prefix of `l` (character lists). -/
def isPrefixOfCL : List Char → List Char → Bool
  | [], _ => true
  | _ :: _, [] => false
  | p :: ps, c :: t => p == c && isPrefixOfCL ps t

/-- Replace every (non-overlapping, left-to-right) occurrence of `pat` by
nothing, as the Python str.replace method with an empty replacement does;
fuelled by the length of the scanned list. -/
def replaceAllFuel (pat : List Char) : Nat → List Char → List Char
  | _, [] => []
  | 0, l => l
  | f + 1, c :: t =>
    if isPrefixOfCL pat (c :: t) then replaceAllFuel pat f ((c :: t).drop pat.length)
    else c :: replaceAllFuel pat f t

def replaceAll (pat : List Char) (l : List Char) : List Char :=
  if pat.isEmpty then l else replaceAllFuel pat l.length l

/-- Python str.strip(braces): drop brace characters from both ends. -/
def stripBraces (l : List Char) : List Char :=
  ((l.dropWhile isBrace).reverse.dropWhile isBrace).reverse

/-- Hex digits with single underscores between digits, continuing after an
initial digit was consumed. -/
def pyHexTailValid : List Char → Bool
  | [] => true
  | c :: t =>
    if c == '_' then
      match t with
      | [] => false
      | d :: t2 => isHexDigit d && pyHexTailValid t2
    else isHexDigit c && pyHexTailValid t

/-- Nonempty run of hex digits with single underscores between digits. -/
def pyHexDigitsValid : List Char → Bool
  | [] => false
  | c :: t => isHexDigit c && pyHexTailValid t

/-- One optional leading sign, as in the Python int parser. -/
def stripSign : List Char → List Char
  | [] => []
  | c :: t => if c == '+' || c == '-' then t else c :: t

/-- What may follow the hexadecimal prefix 0x/0X: one optional underscore
and then the digit run. -/
def pyIntHexAfterBase : List Char → Bool
  | [] => false
  | c2 :: r2 => if c2 == '_' then pyHexDigitsValid r2 else pyHexDigitsValid (c2 :: r2)

/-- After whitespace and sign removal: an optional 0x/0X prefix and then
the digit run. -/
def pyIntHexCore : List Char → Bool
  | c0 :: c1 :: rest =>
    if c0 == '0' && (c1 == 'x' || c1 == 'X') then pyIntHexAfterBase rest
    else pyHexDigitsValid (c0 :: c1 :: rest)
  | l => pyHexDigitsValid l

/-- Whether Python int(s, 16) succeeds on an ASCII string s. -/
def pyIntHexValid (l : List Char) : Bool :=
  pyIntHexCore (stripSign (((l.dropWhile isPySpace).reverse.dropWhile isPySpace).reverse))

/-- The uuid constructor removes the literal pieces urn: and uuid:
anywhere in the string (in that order), strips braces from the ends, and
removes every hyphen. -/
def uuidNormalize (s : String) : List Char :=
  (stripBraces
    (replaceAll ['u', 'u', 'i', 'd', ':'] (replaceAll ['u', 'r', 'n', ':'] s.toList))).filter
      (fun c => !(c == '-'))

/-- Model of is_valid_guid from src/src/utils/helpers.py: whether
uuid.UUID(s) succeeds. -/
def is_valid_guid (s : String) : Bool :=
  (uuidNormalize s).length == 32 && pyIntHexValid (uuidNormalize s)

/-! ### The textual 8-4-4-4-12 shape

Modelled from the spec (section 6): an identifier satisfies the textual
form of a 128-bit UUID when it is five hyphen-separated groups of hex
digits with lengths 8, 4, 4, 4 and 12.  This definition follows the words
of the spec, for comparison with the `is_valid_guid` acceptance above. -/

/-- Consume exactly `n` hex digits, returning the remainder. -/
def takeHex : Nat → List Char → Option (List Char)
  | 0, l => some l
  | _ + 1, [] => none
  | n + 1, c :: t => if isHexDigit c then takeHex n t else none

/-- Consume one hyphen, returning the remainder. -/
def takeDash : List Char → Option (List Char)
  | [] => none
  | c :: t => if c == '-' then some t else none

def isUuidShape (s : String) : Bool :=
  (((((((((takeHex 8 s.toList).bind takeDash).bind
      (takeHex 4)).bind takeDash).bind
      (takeHex 4)).bind takeDash).bind
      (takeHex 4)).bind takeDash).bind
      (takeHex 12)) == some []

/-! ### Parent-pointer walks -/

/-- The parent successor of a guid in the store: `some p` when an Item row
with this guid exists and has a non-NULL parent column, `none` otherwise
(no row, or NULL parent).  This mirrors the `if not result or not
result[0]: break` step of the upward walks in the routes. -/
def step (s : Store) (g : Guid) : Option Guid :=
  match lookupItem s g with
  | some (some p) => some p
  | _ => none

/-- Whether the upward parent walk from `g` reaches a terminal (missing row
or NULL parent) within the given fuel. -/
def walkTerminates (s : Store) : Nat → Guid → Bool
  | 0, _ => false
  | f + 1, g =>
    match step s g with
    | none => true
    | some p => walkTerminates s f p

/-- Whether the upward parent walk from `g` encounters `tgt` within the
given fuel (the start itself counts). -/
def walkMeets (s : Store) (tgt : Guid) : Nat → Guid → Bool
  | 0, _ => false
  | f + 1, g =>
    if g == tgt then true
    else
      match step s g with
      | none => false
      | some p => walkMeets s tgt f p

/-- Iterated parent successor. -/
def iterStep (s : Store) : Nat → Guid → Option Guid
  | 0, g => some g
  | m + 1, g => (step s g).bind (iterStep s m)

/-- Acyclicity of the parent-pointer graph: every upward walk reaches a
terminal in finitely many steps.  A self-loop or a longer cycle makes the
walk from any of its nodes run forever, so this captures exactly the
forest invariant I1 of the spec (no cycles, no item its own parent). -/
def Acyclic (s : Store) : Prop :=
  ∀ g : Guid, ∃ f : Nat, walkTerminates s f g = true

/-! ### The cycle guard

`_creates_circular_reference(cursor, child_guid, proposed_parent_guid)`
appears verbatim in src/src/thingdb/routes/item_routes.py lines 463-487
and src/pi-deployment/routes/relationship_routes.py lines 335-359: a loop
of at most 20 iterations from `proposed_parent_guid`, at each node first
comparing against `child_guid`, then short-circuiting on a node already
visited, then fetching the parent and breaking on a missing row or NULL
parent. -/
def ccrLoop (s : Store) (child : Guid) : Nat → Guid → List Guid → Bool
  | 0, _, _ => false
  | f + 1, current, visited =>
    if current == child then true
    else if visited.contains current then false
    else
      match lookupItem s current with
      | none => false
      | some none => false
      | some (some p) => ccrLoop s child f p (current :: visited)

def creates_circular_reference (s : Store) (child proposed : Guid) : Bool :=
  ccrLoop s child 20 proposed []

/-- Modelled from the spec (section 4.3): the upward walk of CycleGuard,
as a node list — starting at a node, bounded to 20 nodes, tracking visited
guids and stopping when a node repeats, and stopping after a node with no
stored parent.  The guard is claimed to return true exactly when the item
appears in this walk. -/
def upwardWalkAux (s : Store) : Nat → Guid → List Guid → List Guid
  | 0, _, _ => []
  | f + 1, cur, visited =>
    if visited.contains cur then []
    else
      cur :: (match lookupItem s cur with
        | some (some p) => upwardWalkAux s f p (cur :: visited)
        | _ => [])

def upwardWalk (s : Store) (start : Guid) : List Guid :=
  upwardWalkAux s 20 start []

/-! ### Route handlers -/

namespace ItemRoutes

/-- set_parent_item from src/src/thingdb/routes/item_routes.py lines
343-388.  An empty parent_guid string clears the parent (NULL), as in the
route, and the update succeeds even when `guid` names no row (the UPDATE
then affects zero rows). -/
def set_parent_item (s : Store) (guid parent_guid : String) : Except Err Store :=
  if !(is_valid_guid guid) then .error .invalidArgument
  else if parent_guid != "" && !(is_valid_guid parent_guid) then .error .invalidArgument
  else if parent_guid == guid then .error .invalidArgument
  else if parent_guid != "" then
    if !(itemExists s parent_guid) then .error .notFound
    else if creates_circular_reference s guid parent_guid then .error .cycleDetected
    else .ok (updateParent s guid (some parent_guid))
  else .ok (updateParent s guid none)

/-- delete_item from src/src/thingdb/routes/item_routes.py lines 167-207:
refuses deletion while children exist, otherwise deletes the qr_aliases
rows pointing at the item and the Item row itself (image/category rows
and files are elided). -/
def delete_item (s : Store) (guid : String) : Except Err Store :=
  if !(is_valid_guid guid) then .error .invalidArgument
  else if !(itemExists s guid) then .error .notFound
  else if childCount s guid > 0 then .error .hasChildren
  else .ok (deleteItemRow (deleteAliasesOf s guid) guid)

end ItemRoutes

namespace ScannerRoutes

/-- delete_item from src/src/thingdb/routes/scanner_routes.py lines
388-445: deletes the alias rows and the Item row with no check on
children (image/category rows are elided). -/
def delete_item (s : Store) (guid : String) : Except Err Store :=
  if guid == "" then .error .invalidArgument
  else if !(is_valid_guid guid) then .error .invalidArgument
  else if !(itemExists s guid) then .error .notFound
  else .ok (deleteItemRow (deleteAliasesOf s guid) guid)

/-- _resolve_to_base_guid from src/src/thingdb/routes/scanner_routes.py
lines 448-456: one alias lookup, returning the input unchanged when it is
not an alias key. -/
def resolve_to_base_guid (s : Store) (g : Guid) : Guid :=
  match lookupAlias s g with
  | some b => b
  | none => g

/-- make_alias from src/src/thingdb/routes/scanner_routes.py lines
459-544. -/
def make_alias (s : Store) (first_code second_code : String) : Except Err Store :=
  if first_code == "" || second_code == "" then .error .invalidArgument
  else if !(is_valid_guid first_code) || !(is_valid_guid second_code) then
    .error .invalidArgument
  else if first_code == second_code then .error .invalidArgument
  else
    let first_base := resolve_to_base_guid s first_code
    if !(itemExists s first_base) then .error .notFound
    else
      let second_base := resolve_to_base_guid s second_code
      if !(itemExists s second_base) then .error .notFound
      else if (lookupAlias s second_code).isSome then .error .invalidArgument
      else insertAliasRow s second_code first_base

/-- The validation loop of bulk_move: each deduplicated item is checked
for existence and against the cycle guard, all against the store as it
was before any move; the first failure aborts the request. -/
def bulkValidate (s : Store) (parent : Guid) : List Guid → Except Err Unit
  | [] => .ok ()
  | g :: t =>
    if !(itemExists s g) then .error .notFound
    else if creates_circular_reference s g parent then .error .cycleDetected
    else bulkValidate s parent t

/-- The apply loop of bulk_move: sequential parent updates. -/
def applyMoves (s : Store) (parent : Guid) : List Guid → Store
  | [] => s
  | g :: t => applyMoves (updateParent s g (some parent)) parent t

/-- bulk_move from src/src/thingdb/routes/scanner_routes.py lines 547-657.
Python deduplicates with list(set(...)), whose order is unspecified;
`List.eraseDups` (keeping first occurrences) is the deterministic
counterpart.  The returned count sums the rowcounts of the updates; with
one row per guid (primary key) and every deduplicated item validated to
exist this is the number of deduplicated items. -/
def bulk_move (s : Store) (item_guids : List Guid) (parent_guid : Guid) :
    Except Err (Store × Nat) :=
  if item_guids.isEmpty then .error .invalidArgument
  else if parent_guid == "" then .error .invalidArgument
  else if !(is_valid_guid parent_guid) then .error .invalidArgument
  else if !(item_guids.all is_valid_guid) then .error .invalidArgument
  else if item_guids.eraseDups.contains parent_guid then .error .invalidArgument
  else if !(itemExists s parent_guid) then .error .notFound
  else
    match bulkValidate s parent_guid item_guids.eraseDups with
    | .error e => .error e
    | .ok _ =>
      .ok (applyMoves s parent_guid item_guids.eraseDups, item_guids.eraseDups.length)

end ScannerRoutes

namespace RelationshipRoutes

/-- The per-item loop of bulk_move_items: no deduplication; each item is
checked (self-parent, cycle guard when a parent is given, existence) and,
when valid, its move is applied immediately, so later checks run against
the partially mutated store.  Failures become entries of the errors list;
the loop never aborts. -/
def bulk_move_loop (parent : Guid) :
    List Guid → Store → Nat → List (Guid × Err) → Store × Nat × List (Guid × Err)
  | [], s, moved, errs => (s, moved, errs.reverse)
  | g :: t, s, moved, errs =>
    if parent == g then
      bulk_move_loop parent t s moved ((g, .invalidArgument) :: errs)
    else if parent != "" && creates_circular_reference s g parent then
      bulk_move_loop parent t s moved ((g, .cycleDetected) :: errs)
    else if !(itemExists s g) then
      bulk_move_loop parent t s moved ((g, .notFound) :: errs)
    else
      bulk_move_loop parent t
        (updateParent s g (if parent == "" then none else some parent))
        (moved + 1) errs

/-- bulk_move_items from src/pi-deployment/routes/relationship_routes.py
lines 161-235.  An empty new_parent_guid makes the items top-level. -/
def bulk_move_items (s : Store) (item_guids : List Guid) (new_parent_guid : Guid) :
    Except Err (Store × Nat × List (Guid × Err)) :=
  if item_guids.isEmpty then .error .invalidArgument
  else if !(item_guids.all is_valid_guid) then .error .invalidArgument
  else if new_parent_guid != "" && !(is_valid_guid new_parent_guid) then
    .error .invalidArgument
  else if new_parent_guid != "" && !(itemExists s new_parent_guid) then
    .error .notFound
  else .ok (bulk_move_loop new_parent_guid item_guids s 0 [])

/-- associate_item from src/pi-deployment/routes/relationship_routes.py
lines 361-402: verifies the target Item exists, inserts the alias row
mapping the scanned code to the target, and deletes the placeholder Item
row for the scanned code, with no self-association guard. -/
def associate_item (s : Store) (guid target_guid : Guid) : Except Err Store :=
  if !(is_valid_guid guid) then .error .invalidArgument
  else if !(is_valid_guid target_guid) then .error .invalidArgument
  else if !(itemExists s target_guid) then .error .notFound
  else (insertAliasRow s guid target_guid).map (fun s1 => deleteItemRow s1 guid)

end RelationshipRoutes

namespace CoreRoutes

/-- The placeholder-creation tail of process_guid, src/src/thingdb/routes/
core_routes.py lines 88-113: check whether an Item row with the scanned
guid exists; when it does not, insert a placeholder row.  The check and
the insert are separate store accesses, so a concurrent writer may create
the row in between; the two snapshot arguments expose that window:
`sAtCheck` is the store when the SELECT ran and `sAtInsert` the store when
the INSERT ran (they coincide when nothing intervened).  The route has no
exception handler, so a duplicate-key failure of the insert propagates to
the caller.  Label-number allocation and the default name are elided. -/
def process_guid_create (sAtCheck sAtInsert : Store) (guid : Guid) :
    Except Err (Store × Bool) :=
  if itemExists sAtCheck guid then .ok (sAtInsert, false)
  else (insertItemRow sAtInsert guid none).map (fun s2 => (s2, true))

end CoreRoutes

/-! ### Operation sequences over the hierarchy -/

/-- One structural mutation of the hierarchy, as named by the spec:
set_parent (realized by set_parent_item), bulk_set_parent (realized by the
scanner bulk_move) and delete_item (realized by the item-routes
delete_item). -/
inductive Op where
  | setp (guid parent_guid : String) : Op
  | bulk (item_guids : List String) (parent_guid : String) : Op
  | del (guid : String) : Op
deriving Repr, DecidableEq

def runOp (s : Store) : Op → Except Err Store
  | .setp g p => ItemRoutes.set_parent_item s g p
  | .bulk gs p => (ScannerRoutes.bulk_move s gs p).map Prod.fst
  | .del g => ItemRoutes.delete_item s g

/-- Run a sequence of operations, stopping at the first failure. -/
def runOps (s : Store) : List Op → Except Err Store
  | [] => .ok s
  | op :: t => (runOp s op).bind (fun s1 => runOps s1 t)

/-- The proviso under which the 20-hop cycle guard is complete for an
operation: the upward walk from the proposed parent reaches a terminal
within the 20 nodes the guard can inspect. -/
def opBound (s : Store) : Op → Bool
  | .setp _ p => p == "" || walkTerminates s 20 p
  | .bulk _ p => walkTerminates s 20 p
  | .del _ => true

/-- Run a sequence of operations, requiring that each succeeds and that
each satisfies the guard-completeness proviso in the state it runs in. -/
def boundedRun (s : Store) : List Op → Option Store
  | [] => some s
  | op :: t =>
    if opBound s op then
      match runOp s op with
      | .ok s1 => boundedRun s1 t
      | .error _ => none
    else none

/-! ### Concrete fixtures used by witnesses and counterexamples

All guids are 32-hex-digit strings (accepted by is_valid_guid; Python
uuid.UUID accepts the undashed form). -/

def u00 : Guid := "00000000000000000000000000000000"
def u01 : Guid := "01000000000000000000000000000000"
def u02 : Guid := "02000000000000000000000000000000"
def u03 : Guid := "03000000000000000000000000000000"
def u04 : Guid := "04000000000000000000000000000000"
def u05 : Guid := "05000000000000000000000000000000"
def u06 : Guid := "06000000000000000000000000000000"
def u07 : Guid := "07000000000000000000000000000000"
def u08 : Guid := "08000000000000000000000000000000"
def u09 : Guid := "09000000000000000000000000000000"
def u10 : Guid := "0a000000000000000000000000000000"
def u11 : Guid := "0b000000000000000000000000000000"
def u12 : Guid := "0c000000000000000000000000000000"
def u13 : Guid := "0d000000000000000000000000000000"
def u14 : Guid := "0e000000000000000000000000000000"
def u15 : Guid := "0f000000000000000000000000000000"
def u16 : Guid := "10000000000000000000000000000000"
def u17 : Guid := "11000000000000000000000000000000"
def u18 : Guid := "12000000000000000000000000000000"
def u19 : Guid := "13000000000000000000000000000000"
def u20 : Guid := "14000000000000000000000000000000"
def uShape : Guid := "12345678-1234-1234-1234-123456789abc"
def uA : Guid := "aa000000000000000000000000000000"
def uB : Guid := "bb000000000000000000000000000000"
def uC : Guid := "cc000000000000000000000000000000"
def uD : Guid := "dd000000000000000000000000000000"
def uE : Guid := "ee000000000000000000000000000000"

/-- A forest that is a single chain of 21 items: u00 is the deepest item
and the parent of each item is the next one; u20 is the root. -/
def chainStore : Store :=
  ⟨[(u00, some u01), (u01, some u02), (u02, some u03), (u03, some u04),
    (u04, some u05), (u05, some u06), (u06, some u07), (u07, some u08),
    (u08, some u09), (u09, some u10), (u10, some u11), (u11, some u12),
    (u12, some u13), (u13, some u14), (u14, some u15), (u15, some u16),
    (u16, some u17), (u17, some u18), (u18, some u19), (u19, some u20),
    (u20, none)], []⟩

/-- The chain store after re-parenting the root u20 under the deepest item
u00: a 21-cycle. -/
def chainStoreCyc : Store :=
  ⟨[(u00, some u01), (u01, some u02), (u02, some u03), (u03, some u04),
    (u04, some u05), (u05, some u06), (u06, some u07), (u07, some u08),
    (u08, some u09), (u09, some u10), (u10, some u11), (u11, some u12),
    (u12, some u13), (u13, some u14), (u14, some u15), (u15, some u16),
    (u16, some u17), (u17, some u18), (u18, some u19), (u19, some u20),
    (u20, some u00)], []⟩

/-- One item uA, and an alias uB mapping to it. -/
def aliasStore : Store := ⟨[(uA, none)], [(uB, uA)]⟩

/-- Two root items uA and uC, no aliases. -/
def pairStore : Store := ⟨[(uA, none), (uC, none)], []⟩

/-- Item uA with one child uC. -/
def parentChildStore : Store := ⟨[(uA, none), (uC, some uA)], []⟩

/-- Alias chain for the one-hop resolution test: uA is an alias of uB and
uB is an alias of uC; uB and uC are items. -/
def aliasChainStore : Store := ⟨[(uB, none), (uC, none)], [(uA, uB), (uB, uC)]⟩

deriving instance DecidableEq for Except

/-! ### Basic lemmas about the upward walks -/

theorem walkTerminates_mono (s : Store) :
    ∀ (f1 : Nat) (g : Guid) (f2 : Nat), walkTerminates s f1 g = true → f1 ≤ f2 →
      walkTerminates s f2 g = true := by
  intro f1
  induction f1 with
  | zero => intro g f2 h _; simp [walkTerminates] at h
  | succ f ih =>
    intro g f2 h hle
    cases f2 with
    | zero => exact absurd hle (by omega)
    | succ f2 =>
      cases hstep : step s g with
      | none => simp [walkTerminates, hstep]
      | some p =>
        rw [walkTerminates, hstep] at h
        rw [walkTerminates, hstep]
        exact ih p f2 h (Nat.le_of_succ_le_succ hle)

theorem iterStep_add (s : Store) (a b : Nat) (g : Guid) :
    iterStep s (a + b) g = (iterStep s a g).bind (iterStep s b) := by
  induction a generalizing g with
  | zero => simp [iterStep]
  | succ a ih =>
    have hab : a + 1 + b = (a + b) + 1 := by omega
    rw [hab, iterStep, iterStep]
    cases hstep : step s g with
    | none => simp
    | some p => simp [ih p]

/-- A guid lying on a cycle of the parent graph has no terminating upward
walk, whatever the fuel. -/
theorem noTerm_of_cycle (s : Store) (m : Nat) (hm : 1 ≤ m) :
    ∀ (f : Nat) (g : Guid), iterStep s m g = some g → walkTerminates s f g = false := by
  intro f
  induction f with
  | zero => intro g _; simp [walkTerminates]
  | succ f ih =>
    intro g hcyc
    obtain ⟨m1, rfl⟩ : ∃ m1, m = m1 + 1 := ⟨m - 1, by omega⟩
    rw [iterStep] at hcyc
    cases hstep : step s g with
    | none => rw [hstep] at hcyc; simp at hcyc
    | some p =>
      rw [hstep] at hcyc
      simp only [Option.some_bind] at hcyc
      have hpc : iterStep s (m1 + 1) p = some p := by
        rw [iterStep_add s m1 1 p, hcyc]
        simp [iterStep, hstep]
      rw [walkTerminates, hstep]
      exact ih p hpc

theorem walkMeets_iterStep (s : Store) (tgt : Guid) :
    ∀ (f : Nat) (g : Guid), walkMeets s tgt f g = true →
      ∃ m, m < f ∧ iterStep s m g = some tgt := by
  intro f
  induction f with
  | zero => intro g h; simp [walkMeets] at h
  | succ f ih =>
    intro g h
    rw [walkMeets] at h
    by_cases hg : (g == tgt) = true
    · exact ⟨0, by omega, by simp [iterStep, eq_of_beq hg]⟩
    · rw [Bool.not_eq_true] at hg
      rw [hg] at h
      simp only [Bool.false_eq_true, if_false] at h
      cases hstep : step s g with
      | none => rw [hstep] at h; simp at h
      | some p =>
        rw [hstep] at h
        obtain ⟨m, hmf, hit⟩ := ih p h
        exact ⟨m + 1, by omega, by rw [iterStep, hstep]; simpa using hit⟩

/-! ### How the store mutations act on lookups and walks -/

theorem find?_map_keyfix (x : Guid) (f : Guid × Option Guid → Guid × Option Guid)
    (hf : ∀ q, (f q).1 = q.1) (l : List (Guid × Option Guid)) :
    (l.map f).find? (fun q => q.1 == x) = (l.find? (fun q => q.1 == x)).map f := by
  induction l with
  | nil => rfl
  | cons q t ih =>
    by_cases hq : (q.1 == x) = true
    · simp [List.find?_cons, hf q, hq]
    · rw [Bool.not_eq_true] at hq
      simp [List.find?_cons, hf q, hq, ih]

theorem lookupItem_updateParent (s : Store) (g : Guid) (p : Option Guid) (x : Guid) :
    lookupItem (updateParent s g p) x =
      (lookupItem s x).map (fun v => if x == g then p else v) := by
  unfold lookupItem updateParent
  rw [find?_map_keyfix x _ (fun q => by by_cases h : (q.1 == g) = true <;> simp [h])]
  cases hf : s.items.find? (fun q => q.1 == x) with
  | none => simp
  | some q =>
    have hpq : (q.1 == x) = true := by simpa using List.find?_some hf
    have hqx : q.1 = x := eq_of_beq hpq
    by_cases hqg : (q.1 == g) = true
    · have hxg : (x == g) = true := by rw [← hqx]; exact hqg
      simp [hqg, hxg, eq_of_beq hqg]
    · rw [Bool.not_eq_true] at hqg
      have hxg : (x == g) = false := by rw [← hqx]; exact hqg
      have hne : q.1 ≠ g := beq_eq_false_iff_ne.mp hqg
      simp [hqg, hxg, hne]

theorem step_updateParent_ne (s : Store) (g : Guid) (p : Option Guid) (x : Guid)
    (hx : x ≠ g) : step (updateParent s g p) x = step s x := by
  unfold step
  rw [lookupItem_updateParent]
  have hb : (x == g) = false := by simpa using hx
  rw [hb]
  cases lookupItem s x with
  | none => rfl
  | some v => simp

theorem step_updateParent_self_some (s : Store) (g P : Guid)
    (hex : itemExists s g = true) :
    step (updateParent s g (some P)) g = some P := by
  unfold step
  rw [lookupItem_updateParent]
  unfold itemExists at hex
  cases hf : s.items.find? (fun q => q.1 == g) with
  | none => rw [hf] at hex; simp at hex
  | some q => simp [lookupItem, hf]

theorem step_updateParent_self_none (s : Store) (g : Guid) :
    step (updateParent s g none) g = none := by
  unfold step
  rw [lookupItem_updateParent]
  cases lookupItem s g <;> simp

theorem updateParent_notExists (s : Store) (g : Guid) (p : Option Guid)
    (h : itemExists s g = false) : updateParent s g p = s := by
  unfold itemExists at h
  obtain ⟨l, al⟩ := s
  unfold updateParent
  simp only [Store.mk.injEq, and_true]
  cases hf : List.find? (fun q => q.1 == g) l with
  | some q => rw [hf] at h; simp at h
  | none =>
    have hall := List.find?_eq_none.mp hf
    have : ∀ q ∈ l, (fun q : Guid × Option Guid => if q.1 == g then (q.1, p) else q) q = id q := by
      intro q hq
      have := hall q hq
      simp only [Bool.not_eq_true] at this
      simp [this]
    rw [List.map_congr_left this, List.map_id]

theorem step_deleteAliases (s : Store) (g x : Guid) :
    step (deleteAliasesOf s g) x = step s x := rfl

theorem find?_key_filter_ne (g x : Guid) (l : List (Guid × Option Guid)) :
    (l.filter (fun q => !(q.1 == g))).find? (fun q => q.1 == x) =
      if x == g then none else l.find? (fun q => q.1 == x) := by
  induction l with
  | nil => by_cases hxg : (x == g) = true <;> simp [hxg]
  | cons q t ih =>
    by_cases hqg : (q.1 == g) = true
    · have hq1 : q.1 = g := eq_of_beq hqg
      by_cases hxg : (x == g) = true
      · simp [List.filter_cons, hqg, ih, hxg]
      · have hgx : ¬(x = g) := by simpa using hxg
        have hqx : (q.1 == x) = false := by
          rw [hq1, beq_eq_false_iff_ne]
          exact fun h => hgx h.symm
        simp [List.filter_cons, hqg, ih, hxg, hqx]
    · rw [Bool.not_eq_true] at hqg
      by_cases hqx : (q.1 == x) = true
      · have hq1x : q.1 = x := eq_of_beq hqx
        have hxg : (x == g) = false := by rw [← hq1x]; exact hqg
        simp [List.filter_cons, hqg, hqx, hxg]
      · rw [Bool.not_eq_true] at hqx
        simp [List.filter_cons, hqg, hqx, ih]

theorem lookupItem_deleteItem (s : Store) (g x : Guid) :
    lookupItem (deleteItemRow s g) x = if x == g then none else lookupItem s x := by
  unfold lookupItem deleteItemRow
  simp only
  rw [find?_key_filter_ne]
  by_cases hxg : (x == g) = true
  · rw [if_pos hxg, if_pos hxg]; rfl
  · rw [Bool.not_eq_true] at hxg
    rw [if_neg (by simp [hxg]), if_neg (by simp [hxg])]

theorem step_deleteItem (s : Store) (g x : Guid) :
    step (deleteItemRow s g) x = if x == g then none else step s x := by
  unfold step
  rw [lookupItem_deleteItem]
  by_cases hxg : (x == g) = true
  · rw [if_pos hxg, if_pos hxg]
  · rw [Bool.not_eq_true] at hxg
    rw [if_neg (by simp [hxg]), if_neg (by simp [hxg])]

/-! ### Completeness of the guard on terminating walks, and the guard as
a walk-membership test -/

/-- If the guard loop returned false and the upward walk from the current
node terminates within the loop fuel, the walk never meets the child.
The visited list is constrained to hold only strict predecessors of the
current node, which is how the loop maintains it. -/
theorem ccrLoop_false_meets_false (s : Store) (child : Guid) :
    ∀ (f : Nat) (cur : Guid) (vis : List Guid),
      (∀ v ∈ vis, ∃ k, 1 ≤ k ∧ iterStep s k v = some cur) →
      walkTerminates s f cur = true →
      ccrLoop s child f cur vis = false →
      walkMeets s child f cur = false := by
  intro f
  induction f with
  | zero => intro cur vis _ ht _; simp [walkTerminates] at ht
  | succ f ih =>
    intro cur vis hvis ht hccr
    rw [ccrLoop] at hccr
    by_cases hc : (cur == child) = true
    · rw [if_pos hc] at hccr; simp at hccr
    · rw [Bool.not_eq_true] at hc
      simp only [hc, Bool.false_eq_true, if_false] at hccr
      by_cases hv : vis.contains cur = true
      · have hmem : cur ∈ vis := by simpa using hv
        obtain ⟨k, hk1, hkit⟩ := hvis cur hmem
        have hft := noTerm_of_cycle s k hk1 (f + 1) cur hkit
        rw [hft] at ht
        simp at ht
      · rw [Bool.not_eq_true] at hv
        simp only [hv, Bool.false_eq_true, if_false] at hccr
        cases hli : lookupItem s cur with
        | none =>
          have hstep : step s cur = none := by unfold step; rw [hli]
          rw [walkMeets]
          simp [hc, hstep]
        | some op =>
          cases op with
          | none =>
            have hstep : step s cur = none := by unfold step; rw [hli]
            rw [walkMeets]
            simp [hc, hstep]
          | some p =>
            rw [hli] at hccr
            have hstep : step s cur = some p := by unfold step; rw [hli]
            rw [walkTerminates, hstep] at ht
            have hvis2 : ∀ v ∈ cur :: vis, ∃ k, 1 ≤ k ∧ iterStep s k v = some p := by
              intro v hvmem
              rcases List.mem_cons.mp hvmem with rfl | hvm
              · exact ⟨1, le_refl 1, by simp [iterStep, hstep]⟩
              · obtain ⟨k, hk1, hkit⟩ := hvis v hvm
                refine ⟨k + 1, by omega, ?_⟩
                rw [iterStep_add s k 1 v, hkit]
                simp [iterStep, hstep]
            have hm := ih p (cur :: vis) hvis2 ht hccr
            rw [walkMeets, hstep]
            simp [hc, hm]

/-- On a store where the upward walk from the proposed parent reaches a
terminal within the 20 nodes the guard can inspect, a false guard answer
really means the item is not an ancestor of the proposed parent. -/
theorem guard_complete (s : Store) (child P : Guid)
    (ht : walkTerminates s 20 P = true)
    (hg : creates_circular_reference s child P = false) :
    walkMeets s child 20 P = false :=
  ccrLoop_false_meets_false s child 20 P [] (by intro v hv; simp at hv) ht hg

theorem ccrLoop_iff_mem_upwardWalkAux (s : Store) (item : Guid) :
    ∀ (f : Nat) (cur : Guid) (vis : List Guid), vis.contains item = false →
      (ccrLoop s item f cur vis = true ↔ item ∈ upwardWalkAux s f cur vis) := by
  intro f
  induction f with
  | zero => intro cur vis _; simp [ccrLoop, upwardWalkAux]
  | succ f ih =>
    intro cur vis hvi
    rw [ccrLoop, upwardWalkAux]
    by_cases hc : (cur == item) = true
    · have hcur : cur = item := eq_of_beq hc
      subst hcur
      have hnm : cur ∉ vis := by simpa using hvi
      rw [hc, hvi]
      simp
    · rw [Bool.not_eq_true] at hc
      have hne : cur ≠ item := beq_eq_false_iff_ne.mp hc
      rw [hc]
      by_cases hv : vis.contains cur = true
      · rw [hv]
        simp
      · rw [Bool.not_eq_true] at hv
        rw [hv]
        cases hli : lookupItem s cur with
        | none => simp [Ne.symm hne]
        | some op =>
          cases op with
          | none => simp [Ne.symm hne]
          | some p =>
            have hvi2 : (cur :: vis).contains item = false := by
              simp only [List.contains_cons, Bool.or_eq_false_iff]
              exact ⟨beq_eq_false_iff_ne.mpr (Ne.symm hne), hvi⟩
            simp [Ne.symm hne, ih p (cur :: vis) hvi2]

/-! ### Simulation lemmas: how walks change under one parent update -/

/-- Walks that terminate without meeting `g` are unaffected by a store
change that only redirects `g`. -/
theorem walk_sim_avoid (s s2 : Store) (g : Guid)
    (hstep : ∀ y, y ≠ g → step s2 y = step s y) :
    ∀ (f : Nat) (x : Guid), walkTerminates s f x = true → walkMeets s g f x = false →
      walkTerminates s2 f x = true ∧ ∀ h : Guid, walkMeets s2 h f x = walkMeets s h f x := by
  intro f
  induction f with
  | zero => intro x ht _; simp [walkTerminates] at ht
  | succ f ih =>
    intro x ht hm
    rw [walkMeets] at hm
    by_cases hxg : (x == g) = true
    · rw [if_pos hxg] at hm; simp at hm
    · rw [Bool.not_eq_true] at hxg
      have hxg2 : x ≠ g := beq_eq_false_iff_ne.mp hxg
      have hs2 : step s2 x = step s x := hstep x hxg2
      simp only [hxg, Bool.false_eq_true, if_false] at hm
      cases hst : step s x with
      | none =>
        refine ⟨by rw [walkTerminates, hs2, hst], fun h => ?_⟩
        rw [walkMeets, walkMeets, hs2, hst]
      | some p =>
        rw [hst] at hm
        rw [walkTerminates, hst] at ht
        obtain ⟨iht, ihm⟩ := ih p ht hm
        refine ⟨by rw [walkTerminates, hs2, hst]; exact iht, fun h => ?_⟩
        rw [walkMeets, walkMeets, hs2, hst]
        by_cases hxh : (x == h) = true
        · rw [if_pos hxh, if_pos hxh]
        · rw [Bool.not_eq_true] at hxh
          simp only [hxh, Bool.false_eq_true, if_false]
          exact ihm h

/-- A walk that meets `g` in the old store terminates in the new store:
follow it to `g`, take the redirected edge to `P`, and append a
terminating walk from `P` in the new store. -/
theorem walk_sim_through (s s2 : Store) (g P : Guid)
    (hstepne : ∀ y, y ≠ g → step s2 y = step s y)
    (hstepg : step s2 g = some P)
    (G : Nat) (htP : walkTerminates s2 G P = true) :
    ∀ (F : Nat) (x : Guid), walkMeets s g F x = true →
      walkTerminates s2 (F + G) x = true := by
  intro F
  induction F with
  | zero => intro x hm; simp [walkMeets] at hm
  | succ F ih =>
    intro x hm
    rw [walkMeets] at hm
    by_cases hxg : (x == g) = true
    · have hx : x = g := eq_of_beq hxg
      subst hx
      have harith : F + 1 + G = (F + G) + 1 := by omega
      rw [harith, walkTerminates, hstepg]
      exact walkTerminates_mono s2 G P (F + G) htP (by omega)
    · rw [Bool.not_eq_true] at hxg
      have hxg2 : x ≠ g := beq_eq_false_iff_ne.mp hxg
      simp only [hxg, Bool.false_eq_true, if_false] at hm
      cases hst : step s x with
      | none => rw [hst] at hm; simp at hm
      | some p =>
        rw [hst] at hm
        have harith : F + 1 + G = (F + G) + 1 := by omega
        rw [harith, walkTerminates, hstepne x hxg2, hst]
        exact ih p hm

/-! ### Preservation of acyclicity by the individual mutations -/

theorem walkTerminates_stepcut (s s2 : Store)
    (hcut : ∀ y, step s2 y = step s y ∨ step s2 y = none) :
    ∀ (F : Nat) (x : Guid), walkTerminates s F x = true → walkTerminates s2 F x = true := by
  intro F
  induction F with
  | zero => intro x hF; simp [walkTerminates] at hF
  | succ F ih =>
    intro x hF
    rcases hcut x with hsame | hnone
    · rw [walkTerminates] at hF ⊢
      rw [hsame]
      cases hst : step s x with
      | none => rfl
      | some p =>
        rw [hst] at hF
        exact ih p hF
    · rw [walkTerminates, hnone]

theorem acyclic_stepcut (s s2 : Store)
    (hcut : ∀ y, step s2 y = step s y ∨ step s2 y = none)
    (ha : Acyclic s) : Acyclic s2 := by
  intro x
  obtain ⟨F, hF⟩ := ha x
  exact ⟨F, walkTerminates_stepcut s s2 hcut F x hF⟩

/-- Re-parenting `g` under `P` keeps the graph acyclic, provided the
upward walk from `P` in the old store terminates within 20 nodes and
never meets `g`. -/
theorem acyclic_updateParent_some (s : Store) (g P : Guid)
    (ha : Acyclic s) (htP : walkTerminates s 20 P = true)
    (hmP : walkMeets s g 20 P = false) :
    Acyclic (updateParent s g (some P)) := by
  by_cases hex : itemExists s g = true
  case neg =>
    rw [updateParent_notExists s g _ (by simpa using hex)]
    exact ha
  case pos =>
    intro x
    have hstepne : ∀ y, y ≠ g → step (updateParent s g (some P)) y = step s y :=
      fun y hy => step_updateParent_ne s g (some P) y hy
    have hstepg : step (updateParent s g (some P)) g = some P :=
      step_updateParent_self_some s g P hex
    obtain ⟨F, hF⟩ := ha x
    by_cases hm : walkMeets s g F x = true
    · have htP2 : walkTerminates (updateParent s g (some P)) 20 P = true :=
        (walk_sim_avoid s _ g hstepne 20 P htP hmP).1
      exact ⟨F + 20, walk_sim_through s _ g P hstepne hstepg 20 htP2 F x hm⟩
    · rw [Bool.not_eq_true] at hm
      exact ⟨F, (walk_sim_avoid s _ g hstepne F x hF hm).1⟩

theorem acyclic_updateParent_none (s : Store) (g : Guid) (ha : Acyclic s) :
    Acyclic (updateParent s g none) := by
  refine acyclic_stepcut s _ (fun y => ?_) ha
  by_cases hy : y = g
  · subst hy
    exact Or.inr (step_updateParent_self_none s y)
  · exact Or.inl (step_updateParent_ne s g none y hy)

theorem acyclic_delete (s : Store) (g : Guid) (ha : Acyclic s) :
    Acyclic (deleteItemRow (deleteAliasesOf s g) g) := by
  refine acyclic_stepcut s _ (fun y => ?_) ha
  rw [step_deleteItem]
  by_cases hy : (y == g) = true
  · rw [if_pos hy]
    exact Or.inr rfl
  · rw [Bool.not_eq_true] at hy
    rw [if_neg (by simp [hy])]
    exact Or.inl (step_deleteAliases s g y)

/-! ### Success inversions for the mutations, and preservation across
operation sequences -/

theorem set_parent_item_ok (s : Store) (g p : String) (s2 : Store)
    (h : ItemRoutes.set_parent_item s g p = Except.ok s2) :
    (p = "" ∧ s2 = updateParent s g none) ∨
    (p ≠ "" ∧ itemExists s p = true ∧ creates_circular_reference s g p = false ∧
      s2 = updateParent s g (some p)) := by
  unfold ItemRoutes.set_parent_item at h
  split at h
  next => simp at h
  next =>
    split at h
    next => simp at h
    next =>
      split at h
      next => simp at h
      next =>
        split at h
        next hpne =>
          split at h
          next => simp at h
          next hpex =>
            split at h
            next => simp at h
            next hccr =>
              simp only [Except.ok.injEq] at h
              refine Or.inr ⟨by simpa using hpne, by simpa using hpex, by simpa using hccr, h.symm⟩
        next hpne =>
          simp only [Except.ok.injEq] at h
          refine Or.inl ⟨by simpa using hpne, h.symm⟩

theorem acyclic_set_parent (s : Store) (g p : String) (s2 : Store)
    (ha : Acyclic s)
    (hb : (p == "" || walkTerminates s 20 p) = true)
    (h : ItemRoutes.set_parent_item s g p = Except.ok s2) : Acyclic s2 := by
  rcases set_parent_item_ok s g p s2 h with ⟨hp, rfl⟩ | ⟨hpne, _hex, hccr, rfl⟩
  · exact acyclic_updateParent_none s g ha
  · have hterm : walkTerminates s 20 p = true := by
      rcases (by simpa using hb : p = "" ∨ walkTerminates s 20 p = true) with h1 | h1
      · exact absurd h1 hpne
      · exact h1
    exact acyclic_updateParent_some s g p ha hterm (guard_complete s g p hterm hccr)

theorem acyclic_delete_item (s : Store) (g : String) (s2 : Store) (ha : Acyclic s)
    (h : ItemRoutes.delete_item s g = Except.ok s2) : Acyclic s2 := by
  unfold ItemRoutes.delete_item at h
  split at h
  next => simp at h
  next =>
    split at h
    next => simp at h
    next =>
      split at h
      next => simp at h
      next =>
        simp only [Except.ok.injEq] at h
        rw [← h]
        exact acyclic_delete s g ha

theorem bulkValidate_ok (s : Store) (P : Guid) :
    ∀ (l : List Guid), ScannerRoutes.bulkValidate s P l = Except.ok () →
      ∀ g ∈ l, itemExists s g = true ∧ creates_circular_reference s g P = false := by
  intro l
  induction l with
  | nil => intro _ g hg; simp at hg
  | cons a t ih =>
    intro h g hg
    unfold ScannerRoutes.bulkValidate at h
    split at h
    next => simp at h
    next hex =>
      split at h
      next => simp at h
      next hccr =>
        rcases List.mem_cons.mp hg with rfl | hgm
        · exact ⟨by simpa using hex, by simpa using hccr⟩
        · exact ih h g hgm

theorem acyclic_applyMoves (P : Guid) :
    ∀ (l : List Guid) (t : Store), Acyclic t → walkTerminates t 20 P = true →
      (∀ g ∈ l, walkMeets t g 20 P = false) →
      Acyclic (ScannerRoutes.applyMoves t P l) := by
  intro l
  induction l with
  | nil => intro t ha _ _; exact ha
  | cons a r ih =>
    intro t ha htP hml
    have hma : walkMeets t a 20 P = false := hml a (by simp)
    have ha2 : Acyclic (updateParent t a (some P)) :=
      acyclic_updateParent_some t a P ha htP hma
    have hstepne : ∀ y, y ≠ a → step (updateParent t a (some P)) y = step t y :=
      fun y hy => step_updateParent_ne t a (some P) y hy
    have hsim := walk_sim_avoid t (updateParent t a (some P)) a hstepne 20 P htP hma
    rw [ScannerRoutes.applyMoves]
    refine ih (updateParent t a (some P)) ha2 hsim.1 ?_
    intro g hg
    rw [hsim.2 g]
    exact hml g (List.mem_cons_of_mem a hg)

theorem acyclic_bulk_move (s : Store) (gs : List Guid) (P : Guid) (s2 : Store) (n : Nat)
    (ha : Acyclic s) (htP : walkTerminates s 20 P = true)
    (h : ScannerRoutes.bulk_move s gs P = Except.ok (s2, n)) : Acyclic s2 := by
  unfold ScannerRoutes.bulk_move at h
  split at h
  next => simp at h
  next =>
    split at h
    next => simp at h
    next =>
      split at h
      next => simp at h
      next =>
        split at h
        next => simp at h
        next =>
          split at h
          next => simp at h
          next =>
            split at h
            next => simp at h
            next =>
              split at h
              next => simp at h
              next val hval =>
                cases val
                simp only [Except.ok.injEq, Prod.mk.injEq] at h
                have hfacts := bulkValidate_ok s P gs.eraseDups hval
                have hmeets : ∀ g ∈ gs.eraseDups, walkMeets s g 20 P = false :=
                  fun g hg => guard_complete s g P htP (hfacts g hg).2
                rw [← h.1]
                exact acyclic_applyMoves P gs.eraseDups s ha htP hmeets

/-- Every sequence of set_parent / bulk_set_parent / delete_item calls in
which each call individually succeeds keeps the forest acyclic, provided
each call satisfies the guard-completeness proviso (the upward walk from
the proposed parent terminates within the 20 nodes the guard inspects).
Applying this to every prefix of a sequence gives the invariant in every
intermediate state. -/
theorem acyclic_boundedRun :
    ∀ (ops : List Op) (s s2 : Store), Acyclic s → boundedRun s ops = some s2 →
      Acyclic s2 := by
  intro ops
  induction ops with
  | nil =>
    intro s s2 ha h
    simp [boundedRun] at h
    rw [← h]
    exact ha
  | cons op t ih =>
    intro s s2 ha h
    rw [boundedRun] at h
    split at h
    case isFalse => exact Option.noConfusion h
    case isTrue hb =>
      split at h
      next s1 hrun =>
        refine ih s1 s2 ?_ h
        cases op with
        | setp g p =>
          exact acyclic_set_parent s g p s1 ha (by simpa [opBound] using hb) hrun
        | bulk gs p =>
          have hbp : walkTerminates s 20 p = true := by simpa [opBound] using hb
          simp only [runOp] at hrun
          cases hbm : ScannerRoutes.bulk_move s gs p with
          | error e => rw [hbm] at hrun; simp [Except.map] at hrun
          | ok pr =>
            rw [hbm] at hrun
            simp only [Except.map, Except.ok.injEq] at hrun
            rw [← hrun]
            exact acyclic_bulk_move s gs p pr.1 pr.2 ha hbp (by rw [hbm])
        | del g => exact acyclic_delete_item s g s1 ha hrun
      next e hrun => exact Option.noConfusion h

/-! ### Strings of the 8-4-4-4-12 shape are accepted by is_valid_guid -/

theorem hex_ne_char (c d : Char) (hc : isHexDigit c = true)
    (hd : isHexDigit d = false) : c ≠ d :=
  fun h => absurd (h ▸ hc) (by simp [hd])

theorem hex_not_space (c : Char) (hc : isHexDigit c = true) : isPySpace c = false := by
  unfold isPySpace
  have h1 : (c == ' ') = false := beq_eq_false_iff_ne.mpr (hex_ne_char c ' ' hc (by decide))
  have h2 : (c == Char.ofNat 9) = false :=
    beq_eq_false_iff_ne.mpr (hex_ne_char c (Char.ofNat 9) hc (by decide))
  have h3 : (c == Char.ofNat 10) = false :=
    beq_eq_false_iff_ne.mpr (hex_ne_char c (Char.ofNat 10) hc (by decide))
  have h4 : (c == Char.ofNat 11) = false :=
    beq_eq_false_iff_ne.mpr (hex_ne_char c (Char.ofNat 11) hc (by decide))
  have h5 : (c == Char.ofNat 12) = false :=
    beq_eq_false_iff_ne.mpr (hex_ne_char c (Char.ofNat 12) hc (by decide))
  have h6 : (c == Char.ofNat 13) = false :=
    beq_eq_false_iff_ne.mpr (hex_ne_char c (Char.ofNat 13) hc (by decide))
  rw [h1, h2, h3, h4, h5, h6]
  rfl

theorem hex_not_brace (c : Char) (hc : isHexDigit c = true) : isBrace c = false := by
  unfold isBrace
  have h1 : (c == Char.ofNat 123) = false :=
    beq_eq_false_iff_ne.mpr (hex_ne_char c (Char.ofNat 123) hc (by decide))
  have h2 : (c == Char.ofNat 125) = false :=
    beq_eq_false_iff_ne.mpr (hex_ne_char c (Char.ofNat 125) hc (by decide))
  rw [h1, h2]
  rfl

theorem takeHex_decomp :
    ∀ (n : Nat) (l r : List Char), takeHex n l = some r →
      ∃ pre, l = pre ++ r ∧ pre.length = n ∧ ∀ c ∈ pre, isHexDigit c = true := by
  intro n
  induction n with
  | zero =>
    intro l r h
    rw [takeHex] at h
    simp only [Option.some.injEq] at h
    exact ⟨[], by simp [h], rfl, by simp⟩
  | succ n ih =>
    intro l r h
    cases l with
    | nil => simp [takeHex] at h
    | cons c t =>
      rw [takeHex] at h
      split at h
      next hc =>
        obtain ⟨pre, rfl, hlen, hhex⟩ := ih t r h
        refine ⟨c :: pre, rfl, by simp [hlen], ?_⟩
        intro d hd
        rcases List.mem_cons.mp hd with rfl | hdm
        · exact hc
        · exact hhex d hdm
      next => simp at h

theorem takeDash_decomp (l r : List Char) (h : takeDash l = some r) : l = '-' :: r := by
  cases l with
  | nil => simp [takeDash] at h
  | cons c t =>
    rw [takeDash] at h
    split at h
    next hc =>
      simp only [Option.some.injEq] at h
      rw [eq_of_beq hc, h]
    next => simp at h

theorem isUuidShape_decomp (s : String) (h : isUuidShape s = true) :
    ∃ a b c d e : List Char,
      s.toList = a ++ '-' :: (b ++ '-' :: (c ++ '-' :: (d ++ '-' :: e))) ∧
      (∀ ch ∈ a ++ b ++ c ++ d ++ e, isHexDigit ch = true) ∧
      a.length = 8 ∧ b.length = 4 ∧ c.length = 4 ∧ d.length = 4 ∧ e.length = 12 := by
  unfold isUuidShape at h
  rw [beq_iff_eq] at h
  obtain ⟨u8, hc8, hE⟩ := Option.bind_eq_some.mp h
  obtain ⟨u7, hc7, h8d⟩ := Option.bind_eq_some.mp hc8
  obtain ⟨u6, hc6, h7h⟩ := Option.bind_eq_some.mp hc7
  obtain ⟨u5, hc5, h6d⟩ := Option.bind_eq_some.mp hc6
  obtain ⟨u4, hc4, h5h⟩ := Option.bind_eq_some.mp hc5
  obtain ⟨u3, hc3, h4d⟩ := Option.bind_eq_some.mp hc4
  obtain ⟨u2, hc2, h3h⟩ := Option.bind_eq_some.mp hc3
  obtain ⟨u1, hc1, h2d⟩ := Option.bind_eq_some.mp hc2
  obtain ⟨a, hla, halen, hahex⟩ := takeHex_decomp 8 s.toList u1 hc1
  have hu1 : u1 = '-' :: u2 := takeDash_decomp u1 u2 h2d
  obtain ⟨b, hlb, hblen, hbhex⟩ := takeHex_decomp 4 u2 u3 h3h
  have hu3 : u3 = '-' :: u4 := takeDash_decomp u3 u4 h4d
  obtain ⟨c, hlc, hclen, hchex⟩ := takeHex_decomp 4 u4 u5 h5h
  have hu5 : u5 = '-' :: u6 := takeDash_decomp u5 u6 h6d
  obtain ⟨d, hld, hdlen, hdhex⟩ := takeHex_decomp 4 u6 u7 h7h
  have hu7 : u7 = '-' :: u8 := takeDash_decomp u7 u8 h8d
  obtain ⟨e, hle, helen, hehex⟩ := takeHex_decomp 12 u8 [] hE
  rw [List.append_nil] at hle
  refine ⟨a, b, c, d, e, ?_, ?_, halen, hblen, hclen, hdlen, helen⟩
  · rw [hla, hu1, hlb, hu3, hlc, hu5, hld, hu7, hle]
  · intro ch hch
    simp only [List.append_assoc, List.mem_append] at hch
    rcases hch with hm | hm | hm | hm | hm
    · exact hahex ch hm
    · exact hbhex ch hm
    · exact hchex ch hm
    · exact hdhex ch hm
    · exact hehex ch hm

theorem replaceAllFuel_eq_self (p : Char) (ps : List Char) :
    ∀ (f : Nat) (l : List Char), (∀ c ∈ l, c ≠ p) → replaceAllFuel (p :: ps) f l = l := by
  intro f
  induction f with
  | zero => intro l _; cases l <;> rfl
  | succ f ih =>
    intro l hl
    cases l with
    | nil => rfl
    | cons c t =>
      rw [replaceAllFuel]
      have hc : c ≠ p := hl c (by simp)
      have hpre : isPrefixOfCL (p :: ps) (c :: t) = false := by
        rw [isPrefixOfCL]
        have hb : (p == c) = false := beq_eq_false_iff_ne.mpr (fun hpc => hc hpc.symm)
        simp [hb]
      rw [hpre]
      simp only [Bool.false_eq_true, if_false]
      rw [ih t (fun d hd => hl d (by simp [hd]))]

theorem replaceAll_eq_self (p : Char) (ps : List Char) (l : List Char)
    (hl : ∀ c ∈ l, c ≠ p) : replaceAll (p :: ps) l = l := by
  unfold replaceAll
  rw [if_neg (by simp)]
  exact replaceAllFuel_eq_self p ps l.length l hl

theorem dropWhile_eq_self_of_not (pfn : Char → Bool) (l : List Char)
    (h : ∀ c ∈ l, pfn c = false) : l.dropWhile pfn = l := by
  cases l with
  | nil => rfl
  | cons c t =>
    rw [List.dropWhile_cons, h c (by simp)]
    simp

theorem stripBraces_eq_self (l : List Char) (h : ∀ c ∈ l, isBrace c = false) :
    stripBraces l = l := by
  unfold stripBraces
  rw [dropWhile_eq_self_of_not _ l h,
    dropWhile_eq_self_of_not _ l.reverse (fun c hc => h c (List.mem_reverse.mp hc)),
    List.reverse_reverse]

theorem pyHexTailValid_allHex :
    ∀ (l : List Char), (∀ c ∈ l, isHexDigit c = true) → pyHexTailValid l = true := by
  intro l
  induction l with
  | nil => intro _; rfl
  | cons c t ih =>
    intro h
    have hc : isHexDigit c = true := h c (by simp)
    have hcu : (c == '_') = false :=
      beq_eq_false_iff_ne.mpr (hex_ne_char c '_' hc (by decide))
    rw [pyHexTailValid.eq_def]
    simp only [hcu, Bool.false_eq_true, if_false]
    rw [hc, ih (fun d hd => h d (by simp [hd]))]
    rfl

theorem pyHexDigitsValid_allHex (l : List Char) (hne : l ≠ [])
    (h : ∀ c ∈ l, isHexDigit c = true) : pyHexDigitsValid l = true := by
  cases l with
  | nil => exact absurd rfl hne
  | cons c t =>
    rw [pyHexDigitsValid, h c (by simp),
      pyHexTailValid_allHex t (fun d hd => h d (by simp [hd]))]
    rfl

theorem pyIntHexValid_allHex (l : List Char) (hne : l ≠ [])
    (h : ∀ c ∈ l, isHexDigit c = true) : pyIntHexValid l = true := by
  unfold pyIntHexValid
  rw [dropWhile_eq_self_of_not isPySpace l (fun c hc => hex_not_space c (h c hc)),
    dropWhile_eq_self_of_not isPySpace l.reverse
      (fun c hc => hex_not_space c (h c (List.mem_reverse.mp hc))),
    List.reverse_reverse]
  have hss : stripSign l = l := by
    cases l with
    | nil => rfl
    | cons c t =>
      rw [stripSign]
      have hc := h c (by simp)
      have h1 : (c == '+') = false :=
        beq_eq_false_iff_ne.mpr (hex_ne_char c '+' hc (by decide))
      have h2 : (c == '-') = false :=
        beq_eq_false_iff_ne.mpr (hex_ne_char c '-' hc (by decide))
      simp [h1, h2]
  rw [hss]
  cases l with
  | nil => exact absurd rfl hne
  | cons c0 t =>
    cases t with
    | nil => exact pyHexDigitsValid_allHex [c0] (by simp) h
    | cons c1 rest =>
      have hc1 : isHexDigit c1 = true := h c1 (by simp)
      have hx : (c1 == 'x') = false :=
        beq_eq_false_iff_ne.mpr (hex_ne_char c1 'x' hc1 (by decide))
      have hX : (c1 == 'X') = false :=
        beq_eq_false_iff_ne.mpr (hex_ne_char c1 'X' hc1 (by decide))
      rw [pyIntHexCore, hx, hX]
      simp only [Bool.or_self, Bool.and_false, Bool.false_eq_true, if_false]
      exact pyHexDigitsValid_allHex (c0 :: c1 :: rest) (by simp) h

theorem filter_nodash_eq_self (l : List Char) (h : ∀ c ∈ l, isHexDigit c = true) :
    l.filter (fun c => !(c == '-')) = l := by
  refine List.filter_eq_self.mpr (fun c hc => ?_)
  have hd : (c == '-') = false :=
    beq_eq_false_iff_ne.mpr (hex_ne_char c '-' (h c hc) (by decide))
  rw [hd]
  rfl

/-- Every string of the 8-4-4-4-12 hex shape passes is_valid_guid: the
normalization removes no character except the four hyphens, leaving 32 hex
digits, which Python int(_, 16) accepts. -/
theorem is_valid_guid_of_shape (s : String) (h : isUuidShape s = true) :
    is_valid_guid s = true := by
  obtain ⟨a, b, c, d, e, heq, hhex, ha, hb, hc, hd, he⟩ := isUuidShape_decomp s h
  have hmem : ∀ ch, (ch ∈ a ∨ ch ∈ b ∨ ch ∈ c ∨ ch ∈ d ∨ ch ∈ e) → isHexDigit ch = true := by
    intro ch hch
    refine hhex ch ?_
    simp only [List.append_assoc, List.mem_append]
    tauto
  have hchars : ∀ ch ∈ s.toList, isHexDigit ch = true ∨ ch = '-' := by
    rw [heq]
    intro ch hch
    simp only [List.mem_append, List.mem_cons] at hch
    rcases hch with hm | hm | hm | hm | hm | hm | hm | hm | hm
    · exact Or.inl (hmem ch (by tauto))
    · exact Or.inr hm
    · exact Or.inl (hmem ch (by tauto))
    · exact Or.inr hm
    · exact Or.inl (hmem ch (by tauto))
    · exact Or.inr hm
    · exact Or.inl (hmem ch (by tauto))
    · exact Or.inr hm
    · exact Or.inl (hmem ch (by tauto))
  have hu : ∀ ch ∈ s.toList, ch ≠ 'u' := by
    intro ch hch
    rcases hchars ch hch with hx | rfl
    · exact hex_ne_char ch 'u' hx (by decide)
    · decide
  have hbr : ∀ ch ∈ s.toList, isBrace ch = false := by
    intro ch hch
    rcases hchars ch hch with hx | rfl
    · exact hex_not_brace ch hx
    · decide
  unfold is_valid_guid uuidNormalize
  rw [replaceAll_eq_self 'u' _ s.toList hu, replaceAll_eq_self 'u' _ s.toList hu,
    stripBraces_eq_self s.toList hbr, heq]
  have hfa := filter_nodash_eq_self a (fun ch hch => hmem ch (by tauto))
  have hfb := filter_nodash_eq_self b (fun ch hch => hmem ch (by tauto))
  have hfc := filter_nodash_eq_self c (fun ch hch => hmem ch (by tauto))
  have hfd := filter_nodash_eq_self d (fun ch hch => hmem ch (by tauto))
  have hfe := filter_nodash_eq_self e (fun ch hch => hmem ch (by tauto))
  simp only [List.filter_append, List.filter_cons, beq_self_eq_true, Bool.not_true,
    Bool.false_eq_true, if_false, hfa, hfb, hfc, hfd, hfe]
  have hlen : (a ++ (b ++ (c ++ (d ++ e)))).length = 32 := by
    simp [ha, hb, hc, hd, he]
  have hall : ∀ ch ∈ a ++ (b ++ (c ++ (d ++ e))), isHexDigit ch = true := by
    intro ch hch
    simp only [List.mem_append] at hch
    exact hmem ch (by tauto)
  have hne : a ++ (b ++ (c ++ (d ++ e))) ≠ [] := by
    intro h0
    rw [h0] at hlen
    simp at hlen
  rw [hlen, pyIntHexValid_allHex _ hne hall]
  rfl

/-! ### Assorted auxiliary lemmas for the remaining claims -/

theorem acyclic_of_all (s : Store) (F : Nat)
    (h : s.items.all (fun q => walkTerminates s F q.1) = true) : Acyclic s := by
  intro g
  cases hf : s.items.find? (fun q => q.1 == g) with
  | none =>
    refine ⟨1, ?_⟩
    have hstep : step s g = none := by
      unfold step lookupItem
      rw [hf]
      rfl
    rw [walkTerminates, hstep]
  | some q =>
    have hqg : (q.1 == g) = true := by simpa using List.find?_some hf
    have hmem : q ∈ s.items := List.mem_of_find?_eq_some hf
    have hterm := (List.all_eq_true.mp h) q hmem
    refine ⟨F, ?_⟩
    rw [← eq_of_beq hqg]
    simpa using hterm

theorem not_acyclic_of_cycle (s : Store) (g : Guid) (m : Nat) (hm : 1 ≤ m)
    (hc : iterStep s m g = some g) : ¬ Acyclic s := by
  intro ha
  obtain ⟨F, hF⟩ := ha g
  rw [noTerm_of_cycle s m hm F g hc] at hF
  exact Bool.noConfusion hF

theorem contains_of_mem (l : List Guid) (a : Guid) (h : a ∈ l) : l.contains a = true := by
  induction l with
  | nil => simp at h
  | cons b t ih =>
    rcases List.mem_cons.mp h with rfl | hm
    · rw [List.contains_cons, beq_self_eq_true, Bool.true_or]
    · rw [List.contains_cons, ih hm, Bool.or_true]

theorem lookupItem_isSome (s : Store) (g : Guid) :
    (lookupItem s g).isSome = itemExists s g := by
  unfold lookupItem itemExists
  cases s.items.find? (fun q => q.1 == g) <;> simp

theorem bulk_move_loop_count (P : Guid) :
    ∀ (l : List Guid) (t : Store) (m : Nat) (e : List (Guid × Err)),
      (RelationshipRoutes.bulk_move_loop P l t m e).2.1 +
        (RelationshipRoutes.bulk_move_loop P l t m e).2.2.length =
      m + e.length + l.length := by
  intro l
  induction l with
  | nil => intro t m e; simp [RelationshipRoutes.bulk_move_loop]
  | cons a r ih =>
    intro t m e
    rw [RelationshipRoutes.bulk_move_loop]
    split
    next =>
      rw [ih]
      simp only [List.length_cons]
      omega
    next =>
      split
      next =>
        rw [ih]
        simp only [List.length_cons]
        omega
      next =>
        split
        next =>
          rw [ih]
          simp only [List.length_cons]
          omega
        next =>
          rw [ih]
          simp only [List.length_cons]
          omega

theorem lookupItem_applyMoves (P : Guid) :
    ∀ (l : List Guid) (s : Store) (x : Guid),
      lookupItem (ScannerRoutes.applyMoves s P l) x =
        if l.contains x then (lookupItem s x).map (fun _ => some P)
        else lookupItem s x := by
  intro l
  induction l with
  | nil => intro s x; simp [ScannerRoutes.applyMoves]
  | cons a r ih =>
    intro s x
    rw [ScannerRoutes.applyMoves, ih, lookupItem_updateParent]
    by_cases hrx : r.contains x = true
    · rw [if_pos hrx]
      have hcons : (a :: r).contains x = true := by
        rw [List.contains_cons, hrx, Bool.or_true]
      rw [if_pos hcons]
      cases lookupItem s x <;> simp
    · rw [Bool.not_eq_true] at hrx
      rw [hrx]
      simp only [Bool.false_eq_true, if_false]
      by_cases hax : x = a
      · have hbx : (x == a) = true := by simp [hax]
        have hcons : (a :: r).contains x = true := by
          rw [List.contains_cons, hbx, Bool.true_or]
        rw [if_pos hcons]
        cases lookupItem s x <;> simp [hbx]
      · have hbx : (x == a) = false := beq_eq_false_iff_ne.mpr hax
        have hcons : (a :: r).contains x = false := by
          simp only [List.contains_cons, hrx, Bool.or_false]
          exact beq_eq_false_iff_ne.mpr hax
        rw [hcons]
        simp only [Bool.false_eq_true, if_false]
        cases lookupItem s x <;> simp [hbx]

theorem bulk_move_ok_inv (s : Store) (gs : List Guid) (P : Guid) (s2 : Store) (n : Nat)
    (h : ScannerRoutes.bulk_move s gs P = Except.ok (s2, n)) :
    ScannerRoutes.bulkValidate s P gs.eraseDups = Except.ok () ∧
    s2 = ScannerRoutes.applyMoves s P gs.eraseDups ∧
    n = gs.eraseDups.length := by
  unfold ScannerRoutes.bulk_move at h
  split at h
  next => simp at h
  next =>
    split at h
    next => simp at h
    next =>
      split at h
      next => simp at h
      next =>
        split at h
        next => simp at h
        next =>
          split at h
          next => simp at h
          next =>
            split at h
            next => simp at h
            next =>
              split at h
              next => simp at h
              next val hval =>
                cases val
                simp only [Except.ok.injEq, Prod.mk.injEq] at h
                exact ⟨hval, h.1.symm, h.2.symm⟩

/-! ### The claims -/

/-- Claim C1 (amended).  For every sequence of set_parent, bulk_set_parent
and delete_item operations in which each operation individually succeeds
AND, at each step, the upward walk from the proposed parent reaches a
terminal within the 20 nodes the cycle guard can inspect, the
parent-pointer graph stays acyclic and self-loop free after every
operation (apply the theorem to each prefix for the intermediate states).
Without that proviso the claim is false: the guard checks only 20 nodes,
and re-parenting the root of a 21-deep chain under its deepest descendant
succeeds and creates a cycle (see the counterexample). -/
theorem C1_forest_invariant (ops : List Op) (s s2 : Store)
    (ha : Acyclic s) (h : boundedRun s ops = some s2) : Acyclic s2 :=
  acyclic_boundedRun ops s s2 ha h

/-- Witness for C1: one bounded, successful set_parent on a two-item store
keeps the forest acyclic. -/
theorem C1_forest_invariant_witness : Acyclic parentChildStore :=
  C1_forest_invariant [Op.setp uC uA] pairStore parentChildStore
    (acyclic_of_all pairStore 3 (by decide)) (by decide)

/-- Counterexample for C1 as stated: starting from an acyclic 21-item
chain, the single set_parent call moving the root u20 under the deepest
item u00 succeeds (the guard inspects only the first 20 ancestors of u00
and never sees u20), and the resulting store is cyclic. -/
theorem C1_forest_invariant_counterexample :
    Acyclic chainStore ∧
    runOps chainStore [Op.setp u20 u00] = Except.ok chainStoreCyc ∧
    ¬ Acyclic chainStoreCyc :=
  ⟨acyclic_of_all chainStore 21 (by decide), by decide,
    not_acyclic_of_cycle chainStoreCyc u00 21 (by omega) (by decide)⟩

/-- Claim C2.  would_create_cycle(item, proposed_parent) returns true
exactly when item occurs on the upward walk from proposed_parent — the
walk that is bounded to 20 nodes, tracks visited guids and stops on a
repeat, and stops at a missing row or NULL parent.  (In particular it
returns false when the walk reaches a null parent, re-enters a visited
guid, or exhausts the bound without encountering the item.) -/
theorem C2_guard_is_walk_membership (s : Store) (item parent : Guid) :
    creates_circular_reference s item parent = true ↔ item ∈ upwardWalk s parent := by
  unfold creates_circular_reference upwardWalk
  exact ccrLoop_iff_mem_upwardWalkAux s item 20 parent [] rfl

/-- Claim C3 (amended).  The item-routes delete_item fails with
HasChildren on an item with children and otherwise deletes the Item row
and every alias row pointing at it — but this holds for the item-routes
endpoint only; the scanner delete endpoint deletes regardless of children
(see the counterexample). -/
theorem C3_delete_item_guard (s : Store) (g : String)
    (hv : is_valid_guid g = true) (hex : itemExists s g = true) :
    (0 < childCount s g → ItemRoutes.delete_item s g = Except.error Err.hasChildren) ∧
    (childCount s g = 0 →
      ItemRoutes.delete_item s g =
        Except.ok ⟨s.items.filter (fun q => !(q.1 == g)),
          s.aliases.filter (fun q => !(q.2 == g))⟩) := by
  unfold ItemRoutes.delete_item
  rw [hv, hex]
  simp only [Bool.not_true, Bool.false_eq_true, if_false]
  constructor
  · intro hc
    rw [if_pos hc]
  · intro hc
    rw [if_neg (by omega)]
    rfl

/-- Witness for C3: deleting an item with one child through the
item-routes endpoint fails with HasChildren. -/
theorem C3_delete_item_guard_witness :
    ItemRoutes.delete_item parentChildStore uA = Except.error Err.hasChildren :=
  (C3_delete_item_guard parentChildStore uA (by decide) (by decide)).1 (by decide)

/-- Counterexample for C3 as stated: the scanner delete endpoint — one of
the two delete_item implementations the claim covers — deletes an item
that has a child, instead of failing with HasChildren. -/
theorem C3_delete_item_guard_counterexample :
    0 < childCount parentChildStore uA ∧
    ScannerRoutes.delete_item parentChildStore uA =
      Except.ok ⟨[(uC, some uA)], []⟩ :=
  ⟨by decide, by decide⟩

/-- Claim C4 (amended).  make_alias fails with InvalidArgument when the
two codes are equal as strings (not when their resolved bases are equal)
or when the second code is already an alias key; it fails with NotFound
when either resolved base names no Item; otherwise it inserts exactly the
alias row (second_code, first_base).  When the two codes differ but
resolve to the same base, the call succeeds and inserts a self-alias (see
the counterexample). -/
theorem C4_make_alias_checks (s : Store) (a b : String)
    (hva : is_valid_guid a = true) (hvb : is_valid_guid b = true) :
    (a = b → ScannerRoutes.make_alias s a b = Except.error Err.invalidArgument) ∧
    (a ≠ b → itemExists s (ScannerRoutes.resolve_to_base_guid s a) = false →
      ScannerRoutes.make_alias s a b = Except.error Err.notFound) ∧
    (a ≠ b → itemExists s (ScannerRoutes.resolve_to_base_guid s a) = true →
      itemExists s (ScannerRoutes.resolve_to_base_guid s b) = false →
      ScannerRoutes.make_alias s a b = Except.error Err.notFound) ∧
    (a ≠ b → itemExists s (ScannerRoutes.resolve_to_base_guid s a) = true →
      itemExists s (ScannerRoutes.resolve_to_base_guid s b) = true →
      (lookupAlias s b).isSome = true →
      ScannerRoutes.make_alias s a b = Except.error Err.invalidArgument) ∧
    (a ≠ b → itemExists s (ScannerRoutes.resolve_to_base_guid s a) = true →
      itemExists s (ScannerRoutes.resolve_to_base_guid s b) = true →
      lookupAlias s b = none →
      ScannerRoutes.make_alias s a b =
        Except.ok ⟨s.items, s.aliases ++ [(b, ScannerRoutes.resolve_to_base_guid s a)]⟩) := by
  have ha0 : (a == "") = false :=
    beq_eq_false_iff_ne.mpr (fun h0 => by rw [h0] at hva; exact absurd hva (by decide))
  have hb0 : (b == "") = false :=
    beq_eq_false_iff_ne.mpr (fun h0 => by rw [h0] at hvb; exact absurd hvb (by decide))
  refine ⟨?_, ?_, ?_, ?_, ?_⟩
  · intro hab
    subst hab
    simp [ScannerRoutes.make_alias, ha0, hva]
  · intro hab hexa
    have habf : (a == b) = false := beq_eq_false_iff_ne.mpr hab
    simp [ScannerRoutes.make_alias, ha0, hb0, hva, hvb, habf, hexa]
  · intro hab hexa hexb
    have habf : (a == b) = false := beq_eq_false_iff_ne.mpr hab
    simp [ScannerRoutes.make_alias, ha0, hb0, hva, hvb, habf, hexa, hexb]
  · intro hab hexa hexb halias
    have habf : (a == b) = false := beq_eq_false_iff_ne.mpr hab
    simp [ScannerRoutes.make_alias, ha0, hb0, hva, hvb, habf, hexa, hexb, halias]
  · intro hab hexa hexb halias
    have habf : (a == b) = false := beq_eq_false_iff_ne.mpr hab
    simp [ScannerRoutes.make_alias, insertAliasRow, ha0, hb0, hva, hvb, habf,
      hexa, hexb, halias]

/-- Witness for C4: aliasing a fresh code uC to the item uA succeeds and
inserts the row (uC, uA). -/
theorem C4_make_alias_checks_witness :
    ScannerRoutes.make_alias pairStore uA uC =
      Except.ok ⟨[(uA, none), (uC, none)], [(uC, uA)]⟩ :=
  (C4_make_alias_checks pairStore uA uC (by decide) (by decide)).2.2.2.2
    (by decide) (by decide) (by decide) (by decide)

/-- Counterexample for C4 as stated: uB is an alias of the item uA, so
both codes resolve to the same base uA; the claim demands
InvalidArgument, but make_alias(uB, uA) succeeds and inserts the
self-alias (uA, uA). -/
theorem C4_make_alias_checks_counterexample :
    ScannerRoutes.resolve_to_base_guid aliasStore uB =
      ScannerRoutes.resolve_to_base_guid aliasStore uA ∧
    ScannerRoutes.make_alias aliasStore uB uA =
      Except.ok ⟨[(uA, none)], [(uB, uA), (uA, uA)]⟩ :=
  ⟨by decide, by decide⟩

/-- Claim C5 (amended).  The pi-deployment bulk_move_items never fails
the batch on a per-item problem: under the request-level preconditions it
returns a per-item result in which every requested item is either counted
as moved or reported in the errors list.  The scanner bulk_move, by
contrast, aborts the whole batch on the first NotFound or CycleDetected
item (see the counterexample). -/
theorem C5_bulk_partial_success (s : Store) (gs : List Guid) (P : Guid)
    (h1 : gs.isEmpty = false) (h2 : gs.all is_valid_guid = true)
    (h3 : P ≠ "" → is_valid_guid P = true ∧ itemExists s P = true) :
    ∃ s2 n errs,
      RelationshipRoutes.bulk_move_items s gs P = Except.ok (s2, n, errs) ∧
      n + errs.length = gs.length := by
  have hred : RelationshipRoutes.bulk_move_items s gs P =
      Except.ok (RelationshipRoutes.bulk_move_loop P gs s 0 []) := by
    unfold RelationshipRoutes.bulk_move_items
    rw [h1]
    rw [if_neg (by simp)]
    rw [h2]
    rw [if_neg (by simp)]
    by_cases hP : P = ""
    · subst hP
      rw [if_neg (by simp), if_neg (by simp)]
    · obtain ⟨hv, hex⟩ := h3 hP
      rw [if_neg (by simp [hv]), if_neg (by simp [hex])]
  refine ⟨(RelationshipRoutes.bulk_move_loop P gs s 0 []).1,
    (RelationshipRoutes.bulk_move_loop P gs s 0 []).2.1,
    (RelationshipRoutes.bulk_move_loop P gs s 0 []).2.2, ?_, ?_⟩
  · rw [hred]
  · have hcount := bulk_move_loop_count P gs s 0 []
    simpa using hcount

/-- Witness for C5: a singleton batch under an existing parent yields a
per-item result accounting for the one item. -/
theorem C5_bulk_partial_success_witness :
    ∃ s2 n errs,
      RelationshipRoutes.bulk_move_items pairStore [uA] uC = Except.ok (s2, n, errs) ∧
      n + errs.length = [uA].length :=
  C5_bulk_partial_success pairStore [uA] uC (by decide) (by decide)
    (fun _ => ⟨by decide, by decide⟩)

/-- Counterexample for C5 as stated: in the scanner bulk_move a batch
holding one perfectly movable item uA and one unknown item uD fails as a
whole with NotFound instead of returning a per-item result list. -/
theorem C5_bulk_partial_success_counterexample :
    ScannerRoutes.bulk_move pairStore [uA, uD] uC = Except.error Err.notFound ∧
    itemExists pairStore uA = true ∧
    creates_circular_reference pairStore uA uC = false :=
  ⟨by decide, by decide, by decide⟩

/-- Claim C6 (amended).  The scanner bulk_move behaves exactly as the
claim says: duplicates are collapsed, every existence and cycle check is
evaluated against the store as it was before any move of the batch, and
the moves are applied only after all items validate — the moved count is
the number of deduplicated items, items outside the batch keep their
rows, and each batch item ends under the new parent.  The pi-deployment
bulk_move_items does not collapse duplicates and applies each move as it
validates (see the counterexample). -/
theorem C6_bulk_prevalidation (s : Store) (gs : List Guid) (P : Guid) (s2 : Store)
    (n : Nat) (h : ScannerRoutes.bulk_move s gs P = Except.ok (s2, n)) :
    n = gs.eraseDups.length ∧
    (∀ g ∈ gs.eraseDups,
      itemExists s g = true ∧ creates_circular_reference s g P = false) ∧
    s2 = ScannerRoutes.applyMoves s P gs.eraseDups ∧
    (∀ x, gs.eraseDups.contains x = false → lookupItem s2 x = lookupItem s x) ∧
    (∀ g ∈ gs.eraseDups, lookupItem s2 g = some (some P)) := by
  obtain ⟨hval, hs2, hn⟩ := bulk_move_ok_inv s gs P s2 n h
  have hfacts := bulkValidate_ok s P gs.eraseDups hval
  refine ⟨hn, hfacts, hs2, ?_, ?_⟩
  · intro x hx
    rw [hs2, lookupItem_applyMoves, hx]
    simp
  · intro g hg
    have hex := (hfacts g hg).1
    have hcont := contains_of_mem gs.eraseDups g hg
    rw [hs2, lookupItem_applyMoves, hcont]
    rw [← lookupItem_isSome] at hex
    cases hl : lookupItem s g with
    | none => rw [hl] at hex; simp at hex
    | some v => simp [hl]

/-- Witness for C6: a successful singleton scanner bulk_move produces
exactly the store obtained by applying the validated move to the
pre-batch store. -/
theorem C6_bulk_prevalidation_witness :
    (⟨[(uA, some uC), (uC, none)], ([] : List (Guid × Guid))⟩ : Store) =
      ScannerRoutes.applyMoves pairStore uC ([uA].eraseDups) :=
  (C6_bulk_prevalidation pairStore [uA] uC ⟨[(uA, some uC), (uC, none)], []⟩ 1
    (by decide)).2.2.1

/-- Counterexample for C6 as stated: the pi-deployment bulk_move_items —
cited by the claim — does not collapse duplicates: a batch naming the
same item twice reports moved_count 2 although only one distinct item was
requested. -/
theorem C6_bulk_prevalidation_counterexample :
    RelationshipRoutes.bulk_move_items pairStore [uA, uA] uC =
      Except.ok (⟨[(uA, some uC), (uC, none)], []⟩, 2, []) ∧
    ([uA, uA].eraseDups).length = 1 :=
  ⟨by decide, by decide⟩

/-- Claim C7.  resolve performs exactly one level of alias dereference
and no existence validation: an alias key resolves to its mapped guid,
any other code is returned unchanged, and when A maps to B while B maps
to C, resolving A yields B, not C. -/
theorem C7_resolve_one_level (s : Store) (code mapped nxt : Guid) :
    (lookupAlias s code = some mapped →
      ScannerRoutes.resolve_to_base_guid s code = mapped) ∧
    (lookupAlias s code = none → ScannerRoutes.resolve_to_base_guid s code = code) ∧
    (lookupAlias s code = some mapped → mapped ≠ nxt →
      lookupAlias s mapped = some nxt →
      ScannerRoutes.resolve_to_base_guid s code ≠ nxt) := by
  refine ⟨fun h => ?_, fun h => ?_, fun h hne h2 => ?_⟩
  · unfold ScannerRoutes.resolve_to_base_guid
    rw [h]
  · unfold ScannerRoutes.resolve_to_base_guid
    rw [h]
  · unfold ScannerRoutes.resolve_to_base_guid
    rw [h]
    exact hne

/-- Witness for C7: with uA aliased to uB and uB aliased to uC, resolving
uA returns uB and does not chase the chain to uC. -/
theorem C7_resolve_one_level_witness :
    ScannerRoutes.resolve_to_base_guid aliasChainStore uA = uB ∧
    ScannerRoutes.resolve_to_base_guid aliasChainStore uA ≠ uC :=
  ⟨(C7_resolve_one_level aliasChainStore uA uB uC).1 (by decide),
   (C7_resolve_one_level aliasChainStore uA uB uC).2.2 (by decide) (by decide) (by decide)⟩

/-- Claim C8 (amended).  When the placeholder insert of process_guid hits
a duplicate-key failure (the guid was missing at the existence check but
present at insert time because a concurrent caller created it), the route
propagates the store error to the caller: there is no handler that
re-reads and returns the existing row. -/
theorem C8_duplicate_key_propagates (sAtCheck sAtInsert : Store) (g : Guid)
    (h1 : itemExists sAtCheck g = false) (h2 : itemExists sAtInsert g = true) :
    CoreRoutes.process_guid_create sAtCheck sAtInsert g =
      Except.error Err.duplicateKey := by
  unfold CoreRoutes.process_guid_create insertItemRow
  rw [h1, h2]
  simp [Except.map]

/-- Witness for C8: a concrete raced creation where the insert fails and
the failure is surfaced. -/
theorem C8_duplicate_key_propagates_witness :
    CoreRoutes.process_guid_create ⟨[(uC, none)], []⟩ pairStore uA =
      Except.error Err.duplicateKey :=
  C8_duplicate_key_propagates ⟨[(uC, none)], []⟩ pairStore uA (by decide) (by decide)

/-- Counterexample for C8 as stated: the claim requires the operation to
swallow the duplicate-key failure and return the existing row; instead
the error reaches the caller. -/
theorem C8_duplicate_key_propagates_counterexample :
    itemExists (⟨[], []⟩ : Store) uA = false ∧
    itemExists aliasStore uA = true ∧
    CoreRoutes.process_guid_create ⟨[], []⟩ aliasStore uA =
      Except.error Err.duplicateKey :=
  ⟨rfl, by decide, by decide⟩

/-- Claim C9 (amended).  Every string of the textual 8-4-4-4-12 hex form
is accepted by the guid validation at the boundary, but acceptance is not
limited to that exact shape: Python uuid.UUID also accepts other textual
forms such as the undashed 32-hex-digit form, so strings failing the
8-4-4-4-12 shape are not all rejected (see the counterexample). -/
theorem C9_shape_accepted (s : String) (h : isUuidShape s = true) :
    is_valid_guid s = true :=
  is_valid_guid_of_shape s h

/-- Witness for C9: a canonical 8-4-4-4-12 string passes the validation. -/
theorem C9_shape_accepted_witness : is_valid_guid uShape = true :=
  C9_shape_accepted uShape (by decide)

/-- Counterexample for C9 as stated: a 32-hex-digit string with no
hyphens fails the 8-4-4-4-12 shape yet is accepted by is_valid_guid, so
the boundary does not accept only strings of that exact shape. -/
theorem C9_shape_accepted_counterexample :
    is_valid_guid u00 = true ∧ isUuidShape u00 = false :=
  ⟨by decide, by decide⟩

/-- Claim C10.  associate_item has no self-association guard: for an
existing item g (that is not itself an alias key, per invariant I3),
calling it with scanned code g and target g verifies the target exists,
inserts the alias row (g, g), and deletes the Item row for g in the same
operation, leaving an alias whose target guid names no existing Item. -/
theorem C10_associate_item_self (s : Store) (g : Guid)
    (hv : is_valid_guid g = true) (hex : itemExists s g = true)
    (hal : lookupAlias s g = none) :
    RelationshipRoutes.associate_item s g g =
      Except.ok ⟨s.items.filter (fun q => !(q.1 == g)), s.aliases ++ [(g, g)]⟩ ∧
    lookupAlias ⟨s.items.filter (fun q => !(q.1 == g)), s.aliases ++ [(g, g)]⟩ g =
      some g ∧
    itemExists ⟨s.items.filter (fun q => !(q.1 == g)), s.aliases ++ [(g, g)]⟩ g =
      false := by
  have hso : (lookupAlias s g).isSome = false := by rw [hal]; rfl
  refine ⟨?_, ?_, ?_⟩
  · unfold RelationshipRoutes.associate_item insertAliasRow
    rw [hv, hex, hso]
    simp [Except.map]
    rfl
  · unfold lookupAlias
    rw [show (⟨s.items.filter (fun q => !(q.1 == g)), s.aliases ++ [(g, g)]⟩ :
        Store).aliases = s.aliases ++ [(g, g)] from rfl]
    rw [List.find?_append]
    have hf : s.aliases.find? (fun q => q.1 == g) = none := by
      unfold lookupAlias at hal
      cases hf2 : s.aliases.find? (fun q => q.1 == g) with
      | none => rfl
      | some q => rw [hf2] at hal; simp at hal
    rw [hf]
    simp [List.find?]
  · rw [← lookupItem_isSome]
    rw [show (⟨s.items.filter (fun q => !(q.1 == g)), s.aliases ++ [(g, g)]⟩ : Store) =
        deleteItemRow ⟨s.items, s.aliases ++ [(g, g)]⟩ g from rfl]
    rw [lookupItem_deleteItem]
    simp

/-- Witness for C10: on a store where uA is an item (and uB an alias of
it), self-associating uA inserts the alias (uA, uA) and deletes the Item
row, leaving the alias pointing at nothing. -/
theorem C10_associate_item_self_witness :
    RelationshipRoutes.associate_item aliasStore uA uA =
      Except.ok ⟨[], [(uB, uA), (uA, uA)]⟩ ∧
    lookupAlias ⟨[], [(uB, uA), (uA, uA)]⟩ uA = some uA ∧
    itemExists ⟨[], [(uB, uA), (uA, uA)]⟩ uA = false :=
  C10_associate_item_self aliasStore uA (by decide) (by decide) (by decide)

end ThingDB
